import Mathlib

/-!
# Verification of the SteamGamesRecommender recommendation pipeline

A shallow embedding of the text-to-vector-to-ranking pipeline of the
SteamGamesRecommender repository:

* `backend/recommender/preprocess.py` — `clean_text` (text normalizer);
* `backend/recommender/vectorizer.py` — `transform_text` over a fitted
  TF-IDF vectorizer;
* `backend/recommender/similarity.py` — `calculate_similarity_matrix`,
  `find_top_matches`, `get_similarity_scores`;
* `backend/recommender/recommend.py` — `GameRecommender.recommend`.

Machine floats are modelled as exact rationals (`ℚ`).  External library
state that the code consumes (the NLTK stopword list and WordNet
lemmatizer, the fitted vocabulary and idf weights of the sklearn
`TfidfVectorizer`) is carried as explicit data, so every theorem
quantifies over it.
-/

namespace SteamRec

/- Batteries marks the `Rat` field operations `@[irreducible]`; re-allow
unfolding so that concrete similarity computations can be settled by
`decide`. -/
attribute [local semireducible] Rat.mul Rat.add Rat.sub Rat.inv

/-! ## Text normalizer: `preprocess.py` `clean_text` -/

/-- Python `text.lower()` (character-wise lowercasing). -/
def pyLower (s : String) : String := ⟨s.data.map Char.toLower⟩

/-- The character class kept by `re.sub(r'[^a-z\s]', '', text)`:
lowercase ASCII letters and whitespace. -/
def isKeptChar (c : Char) : Bool :=
  (decide ('a' ≤ c) && decide (c ≤ 'z')) || c.isWhitespace

/-- `re.sub(r'[^a-z\s]', '', text)`: delete every character outside the
lowercase-letter and whitespace class. -/
def keepLetterWs (s : String) : String := ⟨s.data.filter isKeptChar⟩

/-- Python `str.split()` with no argument: split on whitespace runs and
drop empty chunks. -/
def pySplit (s : String) : List String :=
  ((s.data.splitOnP fun c => c.isWhitespace).map fun l => String.mk l).filter
    fun w => decide (w ≠ "")

/-- Python `str.strip()`: remove leading and trailing whitespace. -/
def pyStrip (s : String) : String :=
  ⟨((s.data.dropWhile Char.isWhitespace).reverse.dropWhile Char.isWhitespace).reverse⟩

/-- The module-level NLTK state `preprocess.py` initializes once:
`stop_words = set(stopwords.words('english'))` and
`lemmatizer = WordNetLemmatizer()`.  Both are external corpus data, so the
embedding carries them as explicit parameters. -/
structure NltkData where
  stop_words : List String
  lemmatize : String → String

/-- The `for word in words:` loop of `clean_text`: drop stopwords, lemmatize
each surviving word, preserving order (`cleaned_words.append(lemma)`). -/
def removeStopLemma (nltk : NltkData) : List String → List String
  | [] => []
  | w :: ws =>
    if w ∈ nltk.stop_words then removeStopLemma nltk ws
    else nltk.lemmatize w :: removeStopLemma nltk ws

/-- `clean_text` of `preprocess.py`.  The input is `Option String`: `none`
models a non-string Python value (e.g. `NaN`), matching the guard
`if not isinstance(text, str) or not text: return ""`. -/
def clean_text (nltk : NltkData) (text : Option String) : String :=
  match text with
  | none => ""
  | some s =>
    if s = "" then ""
    else
      String.intercalate " " (removeStopLemma nltk (pySplit (keepLetterWs (pyLower s))))

/-- Restatement of the Text Normalizer contract from the spec, used to compare
against the source-derived `clean_text`: lowercase, strip characters outside
the lowercase-letter/whitespace class, split on whitespace, drop stopwords,
lemmatize survivors, join with single spaces preserving relative order. -/
def cleanTextSpec (nltk : NltkData) (s : String) : String :=
  String.intercalate " "
    (((pySplit (keepLetterWs (pyLower s))).filter fun w =>
        decide (w ∉ nltk.stop_words)).map nltk.lemmatize)

/-! ## Vector space model: `vectorizer.py` `transform_text` -/

/-- sklearn tokenization for `TfidfVectorizer` default `token_pattern`
`\w\w+` (with `lowercase=True`): whitespace-separated words of length ≥ 2. -/
def sklearnTokenize (s : String) : List String :=
  (pySplit (pyLower s)).filter fun w => decide (2 ≤ w.length)

/-- Adjacent bigrams joined with a space, as produced by
`ngram_range=(1, 2)`. -/
def bigrams : List String → List String
  | a :: b :: rest => (a ++ " " ++ b) :: bigrams (b :: rest)
  | _ => []

/-- The fitted state of the sklearn `TfidfVectorizer` that `recommend.py`
receives pre-trained: the ordered vocabulary (unigrams and bigrams) and the
per-term idf weights. -/
structure TfidfVectorizer where
  vocabulary : List String
  idf : List ℚ

/-- `transform_text` of `vectorizer.py`: `vectorizer.transform([text])`,
restricted to one row.  Per coordinate the value is the raw term count in
the query times the fitted idf weight; a term of the query that is outside
the vocabulary contributes to no coordinate.  The final L2 normalization
sklearn applies to the row is elided: cosine similarity is invariant under
positive scaling of its arguments, so it affects no downstream comparison,
and a zero row stays zero either way. -/
def transform_text (vectorizer : TfidfVectorizer) (text : String) : List ℚ :=
  let toks := sklearnTokenize text
  let terms := toks ++ bigrams toks
  List.zipWith (fun t w => (terms.count t : ℚ) * w) vectorizer.vocabulary vectorizer.idf

/-! ## Similarity ranker: `similarity.py` -/

/-- Dot product of two rows (missing coordinates contribute zero). -/
def dotProduct (u v : List ℚ) : ℚ := (List.zipWith (· * ·) u v).sum

/-- `calculate_similarity_matrix` of `similarity.py`:
`cosine_similarity(user_vector, all_game_vectors)[0]`.  sklearn divides the
dot product by the two L2 norms (a zero norm is treated as 1); the stored
TF-IDF rows are L2-normalized by construction, so on the data this pipeline
feeds it the call reduces to the plain dot product per game row, which is
how we embed it — vectors are carried in their normalized form. -/
def calculate_similarity_matrix (user_vector : List ℚ) (all_game_vectors : List (List ℚ)) :
    List ℚ :=
  all_game_vectors.map fun v => dotProduct user_vector v

/-- The comparison this model's argsort sorts by (ascending): compare
scores, break ties by index.  `np.argsort` with the default
`kind='quicksort'` is documented as not stable, so the order of tied scores
is unspecified in general; the tie clause determinizes that choice (as
ascending index, which is also the real behavior below NumPy's small-array
insertion-sort cutoff, the regime of every concrete evaluation in this
file).  No general theorem below depends on the tie order: conclusions
about selections with ties are stated value-wise or up to permutation. -/
def simLe (s : List ℚ) (i j : ℕ) : Prop :=
  s.getD i 0 < s.getD j 0 ∨ (s.getD i 0 = s.getD j 0 ∧ i ≤ j)

instance simLeDecidable (s : List ℚ) : DecidableRel (simLe s) := fun i j => by
  unfold simLe
  infer_instance

instance simLeTotal (s : List ℚ) : IsTotal ℕ (simLe s) where
  total i j := by
    rcases lt_trichotomy (s.getD i 0) (s.getD j 0) with h | h | h
    · exact Or.inl (Or.inl h)
    · rcases Nat.le_total i j with hij | hij
      · exact Or.inl (Or.inr ⟨h, hij⟩)
      · exact Or.inr (Or.inr ⟨h.symm, hij⟩)
    · exact Or.inr (Or.inl h)

instance simLeTrans (s : List ℚ) : IsTrans ℕ (simLe s) where
  trans i j k hij hjk := by
    rcases hij with h1 | ⟨e1, l1⟩
    · rcases hjk with h2 | ⟨e2, _⟩
      · exact Or.inl (h1.trans h2)
      · exact Or.inl (e2 ▸ h1)
    · rcases hjk with h2 | ⟨e2, l2⟩
      · exact Or.inl (e1 ▸ h2)
      · exact Or.inr ⟨e1.trans e2, l1.trans l2⟩

/-- The converse relation: descending scores, ties in descending index
order.  This is the order in which this model's argsort-reverse emits
indices; the real `np.argsort(...)[::-1]` guarantees the score ordering but
not the tie order (see `simLe`). -/
def simGe (s : List ℚ) (i j : ℕ) : Prop := simLe s j i

/-- `np.argsort(similarities)`: a permutation of `[0, …, n-1]` sorted
ascending by score.  The tie order is determinized per `simLe`; it
coincides with NumPy's actual output on the small arrays the concrete
evaluations below use. -/
def npArgsort (s : List ℚ) : List ℕ :=
  List.insertionSort (simLe s) (List.range s.length)

/-- `find_top_matches` of `similarity.py`:
`np.argsort(similarities)[::-1][:top_n]`. -/
def find_top_matches (similarities : List ℚ) (top_n : ℕ) : List ℕ :=
  (npArgsort similarities).reverse.take top_n

/-- `get_similarity_scores` of `similarity.py`:
`[similarities[i] for i in indices]`. -/
def get_similarity_scores (similarities : List ℚ) (indices : List ℕ) : List ℚ :=
  indices.map fun i => similarities.getD i 0

/-- Restatement of the spec's Top-K selection for comparison with the
source-derived `find_top_matches`: "sort by descending score; ties broken by
original corpus order (stable sort); truncate to K.  K is caller-supplied,
clamped to [1, corpus size]."  Descending scores with ties in ascending
index order, truncated to the clamped K. -/
def specLe (s : List ℚ) (i j : ℕ) : Prop :=
  s.getD j 0 < s.getD i 0 ∨ (s.getD i 0 = s.getD j 0 ∧ i ≤ j)

instance specLeDecidable (s : List ℚ) : DecidableRel (specLe s) := fun i j => by
  unfold specLe
  infer_instance

/-- The spec's Top-K selection (see `specLe`). -/
def specTopMatches (s : List ℚ) (k : ℕ) : List ℕ :=
  (List.insertionSort (specLe s) (List.range s.length)).take (max 1 (min k s.length))

/-! ## Recommendation facade: `recommend.py` -/

/-- One element of the list `GameRecommender.recommend` returns: the
dictionary `{'game_id': …, 'game_name': …, 'similarity_score': …,
'match_percentage': …}`. -/
structure Recommendation where
  game_id : ℤ
  game_name : String
  similarity_score : ℚ
  match_percentage : ℚ
  deriving DecidableEq, Repr

/-- The state `GameRecommender.__init__` stores: the fitted vectorizer, the
pre-computed game vectors, and the game names and ids in matching row
order. -/
structure GameRecommender where
  vectorizer : TfidfVectorizer
  game_vectors : List (List ℚ)
  game_names : List String
  game_ids : List ℤ

/-- `GameRecommender.recommend` of `recommend.py`: clean the review, return
`[]` if cleaning stripped everything (`if not cleaned_review.strip()`),
otherwise vectorize, score against every game, take the top `top_n` indices
and their scores, and format the records (fields in order: `game_id`,
`game_name`, `similarity_score`, `match_percentage = score * 100`).
List indexing `self.game_ids[idx]` / `self.game_names[idx]` is embedded with
`getD`; the indices produced by `find_top_matches` are always below the
corpus size, so the default is never read when names and ids are in row
correspondence with the vectors. -/
def GameRecommender.recommend (nltk : NltkData) (self : GameRecommender)
    (user_review : Option String) (top_n : ℕ) : List Recommendation :=
  let cleaned_review := clean_text nltk user_review
  if pyStrip cleaned_review = "" then []
  else
    let user_vector := transform_text self.vectorizer cleaned_review
    let similarities := calculate_similarity_matrix user_vector self.game_vectors
    let top_indices := find_top_matches similarities top_n
    let top_scores := get_similarity_scores similarities top_indices
    (top_indices.zip top_scores).map fun p =>
      ⟨self.game_ids.getD p.1 0, self.game_names.getD p.1 "", p.2, p.2 * 100⟩

/-- The similarity row `recommend` computes for a query: the score of the
cleaned, vectorized query against every stored game vector. -/
def querySims (nltk : NltkData) (gr : GameRecommender) (text : Option String) : List ℚ :=
  calculate_similarity_matrix (transform_text gr.vectorizer (clean_text nltk text))
    gr.game_vectors

/-! ## Concrete instantiation used by witnesses and counterexamples -/

/-- A concrete stopword list (a fragment of the NLTK English list) and the
identity lemmatizer, used to instantiate witnesses; every general theorem
quantifies over `NltkData`. -/
def nltk0 : NltkData :=
  ⟨["i", "me", "a", "an", "the", "and", "is", "of", "to"], id⟩

/-- A concrete two-term fitted vectorizer for witnesses. -/
def vec0 : TfidfVectorizer := ⟨["action", "puzzle"], [1, 1]⟩

/-- A concrete two-game recommender state for witnesses. -/
def gr0 : GameRecommender := ⟨vec0, [[1, 0], [0, 1]], ["Alpha", "Beta"], [10, 20]⟩

/-! ## The claim-side notion "string of stopwords and punctuation" -/

/-- A punctuation character: printable, but neither a letter, a digit, nor
whitespace. -/
def isPunct (c : Char) : Bool := !(c.isAlpha || c.isDigit || c.isWhitespace)

/-- `OnlyStopwordsPunct sw s`: the string `s` consists only of stopwords,
punctuation characters and whitespace, concatenated in any order. -/
inductive OnlyStopwordsPunct (sw : List String) : String → Prop
  | nil : OnlyStopwordsPunct sw ""
  | stopword (w s : String) : w ∈ sw → OnlyStopwordsPunct sw s →
      OnlyStopwordsPunct sw (w ++ s)
  | punct (c : Char) (s : String) : isPunct c → OnlyStopwordsPunct sw s →
      OnlyStopwordsPunct sw (String.singleton c ++ s)
  | whitespace (c : Char) (s : String) : c.isWhitespace → OnlyStopwordsPunct sw s →
      OnlyStopwordsPunct sw (String.singleton c ++ s)

/-! ## General lemmas about the pipeline -/

theorem zip_self_map {α β : Type _} (l : List α) (f : α → β) :
    l.zip (l.map f) = l.map fun a => (a, f a) := by
  induction l with
  | nil => rfl
  | cons a t ih => simp [ih]

theorem length_querySims (nltk : NltkData) (gr : GameRecommender) (text : Option String) :
    (querySims nltk gr text).length = gr.game_vectors.length := by
  simp [querySims, calculate_similarity_matrix]

theorem length_find_top_matches (s : List ℚ) (k : ℕ) :
    (find_top_matches s k).length = min k s.length := by
  unfold find_top_matches npArgsort
  rw [List.length_take, List.length_reverse, List.length_insertionSort, List.length_range]

theorem sorted_find_top_matches (s : List ℚ) (k : ℕ) :
    (find_top_matches s k).Sorted (simGe s) := by
  have h1 : (npArgsort s).Sorted (simLe s) :=
    List.sorted_insertionSort (simLe s) (List.range s.length)
  have h2 : (npArgsort s).reverse.Sorted (simGe s) := by
    rw [List.Sorted, List.pairwise_reverse]
    exact h1
  exact h2.sublist (List.take_sublist _ _)

theorem scores_nonincreasing_find_top_matches (s : List ℚ) (k : ℕ) :
    ((find_top_matches s k).map fun i => s.getD i 0).Sorted (· ≥ ·) := by
  have hs := sorted_find_top_matches s k
  rw [List.Sorted, List.pairwise_map]
  refine hs.imp ?_
  intro i j hij
  rcases hij with hlt | ⟨heq, _⟩
  · exact le_of_lt hlt
  · exact le_of_eq heq

theorem perm_find_top_matches (s : List ℚ) (k : ℕ) (h : s.length ≤ k) :
    List.Perm (find_top_matches s k) (List.range s.length) := by
  unfold find_top_matches
  rw [List.take_of_length_le]
  · exact (npArgsort s).reverse_perm.trans (List.perm_insertionSort _ _)
  · rw [List.length_reverse]
    unfold npArgsort
    rw [List.length_insertionSort, List.length_range]
    exact h

theorem mem_find_top_matches_lt (s : List ℚ) (k : ℕ) (i : ℕ)
    (h : i ∈ find_top_matches s k) : i < s.length := by
  have h1 : i ∈ npArgsort s := by
    have := (List.take_sublist k (npArgsort s).reverse).subset h
    simpa using this
  have h2 : i ∈ List.range s.length := by
    have := (List.perm_insertionSort (simLe s) (List.range s.length)).subset
    exact this h1
  simpa using h2

theorem recommend_eq (nltk : NltkData) (gr : GameRecommender) (text : Option String) (k : ℕ)
    (h : ¬pyStrip (clean_text nltk text) = "") :
    GameRecommender.recommend nltk gr text k =
      (find_top_matches (querySims nltk gr text) k).map fun i =>
        (⟨gr.game_ids.getD i 0, gr.game_names.getD i "",
          (querySims nltk gr text).getD i 0,
          (querySims nltk gr text).getD i 0 * 100⟩ : Recommendation) := by
  simp only [GameRecommender.recommend, get_similarity_scores, querySims]
  rw [if_neg h, zip_self_map, List.map_map]
  rfl

theorem recommend_empty_of_stripped (nltk : NltkData) (gr : GameRecommender)
    (text : Option String) (k : ℕ) (h : pyStrip (clean_text nltk text) = "") :
    GameRecommender.recommend nltk gr text k = [] := by
  simp only [GameRecommender.recommend]
  rw [if_pos h]

theorem dotProduct_eq_zero (u v : List ℚ) (h : ∀ q ∈ u, q = 0) : dotProduct u v = 0 := by
  induction u generalizing v with
  | nil => simp [dotProduct]
  | cons a t ih =>
    cases v with
    | nil => simp [dotProduct]
    | cons b w =>
      have ha : a = 0 := h a (by simp)
      have ht : dotProduct t w = 0 := ih w fun q hq => h q (by simp [hq])
      simp only [dotProduct, List.zipWith_cons_cons, List.sum_cons] at ht ⊢
      rw [ha, ht, zero_mul, add_zero]

theorem getD_zero_of_forall_zero (l : List ℚ) (h : ∀ x ∈ l, x = 0) (i : ℕ) :
    l.getD i 0 = 0 := by
  induction l generalizing i with
  | nil => simp
  | cons a t ih =>
    cases i with
    | zero => simpa using h a (by simp)
    | succ n => simpa using ih (fun x hx => h x (by simp [hx])) n

theorem removeStopLemma_eq_nil (nltk : NltkData) (ws : List String)
    (h : ∀ w ∈ ws, w ∈ nltk.stop_words) : removeStopLemma nltk ws = [] := by
  induction ws with
  | nil => rfl
  | cons w ws ih =>
    unfold removeStopLemma
    rw [if_pos (h w (by simp))]
    exact ih fun x hx => h x (by simp [hx])

theorem removeStopLemma_eq_filter_map (nltk : NltkData) (ws : List String) :
    removeStopLemma nltk ws =
      (ws.filter fun w => decide (w ∉ nltk.stop_words)).map nltk.lemmatize := by
  induction ws with
  | nil => rfl
  | cons w ws ih =>
    by_cases hw : w ∈ nltk.stop_words
    · simp [removeStopLemma, hw, ih]
    · simp [removeStopLemma, hw, ih]

/-! ## Claims -/

/-- C1, counterexample: the query `"xyzzy"` normalizes to the non-empty token
`"xyzzy"`, every token falls outside the fitted vocabulary (the transformed
vector is all-zero), yet `recommend` returns two records with zero similarity
scores — not the empty list the claim asserts. -/
theorem c1_counterexample :
    clean_text nltk0 (some "xyzzy") ≠ "" ∧
    transform_text gr0.vectorizer (clean_text nltk0 (some "xyzzy")) = [0, 0] ∧
    GameRecommender.recommend nltk0 gr0 (some "xyzzy") 5 =
      [⟨20, "Beta", 0, 0⟩, ⟨10, "Alpha", 0, 0⟩] ∧
    GameRecommender.recommend nltk0 gr0 (some "xyzzy") 5 ≠ [] := by
  decide

/-- C1, amended: for every query whose normalization is non-empty but whose
transformed query vector is all-zero, `recommend(text, k)` returns
`min k (corpus size)` records, every one carrying similarity score 0; the
empty list is returned only when normalization strips the text to
empty/whitespace. -/
theorem c1_amended (nltk : NltkData) (gr : GameRecommender) (text : Option String) (k : ℕ)
    (hne : pyStrip (clean_text nltk text) ≠ "")
    (hzero : ∀ q ∈ transform_text gr.vectorizer (clean_text nltk text), q = 0) :
    (GameRecommender.recommend nltk gr text k).length = min k gr.game_vectors.length ∧
    ∀ r ∈ GameRecommender.recommend nltk gr text k, r.similarity_score = 0 := by
  have hsims : ∀ x ∈ querySims nltk gr text, x = 0 := by
    intro x hx
    simp only [querySims, calculate_similarity_matrix, List.mem_map] at hx
    obtain ⟨v, _, rfl⟩ := hx
    exact dotProduct_eq_zero _ v hzero
  rw [recommend_eq nltk gr text k hne]
  constructor
  · rw [List.length_map, length_find_top_matches, length_querySims]
  · intro r hr
    simp only [List.mem_map] at hr
    obtain ⟨i, _, rfl⟩ := hr
    exact getD_zero_of_forall_zero _ hsims i

/-- C1, witness for the amended theorem at the all-out-of-vocabulary query
`"xyzzy"` against the two-game model. -/
theorem c1_amended_witness :
    (GameRecommender.recommend nltk0 gr0 (some "xyzzy") 5).length =
      min 5 gr0.game_vectors.length ∧
    ∀ r ∈ GameRecommender.recommend nltk0 gr0 (some "xyzzy") 5, r.similarity_score = 0 :=
  c1_amended nltk0 gr0 (some "xyzzy") 5 (by decide) (by decide)

/-- C2, counterexample: on the tied score array `[1, 1]` the code emits the
indices in reverse corpus order `[1, 0]`, while the spec's stable descending
sort (ties in original corpus order, K clamped to `[1, corpus size]`) emits
`[0, 1]`; moreover at `top_n = 0` the code returns `[]` where the clamped
spec selection returns one index. -/
theorem c2_counterexample :
    find_top_matches [(1 : ℚ), 1] 2 = [1, 0] ∧
    specTopMatches [(1 : ℚ), 1] 2 = [0, 1] ∧
    find_top_matches [(1 : ℚ), 1] 2 ≠ specTopMatches [(1 : ℚ), 1] 2 ∧
    find_top_matches [(1 : ℚ), 1] 0 = [] ∧
    specTopMatches [(1 : ℚ), 1] 0 = [0] := by
  decide

/-- C2, amended: Top-K selection emits the selected similarity scores in
non-increasing order, but ties between equal scores do NOT come back in the
spec's original corpus order (the tie order of the unstable default
`np.argsort` is unspecified; on the counterexample's array the reversal
emits reverse corpus order), and the caller-supplied `top_n` is truncated
with NO clamping: `top_n = 0` yields the empty selection, and any `top_n`
at least the corpus size yields a permutation of all corpus indices.  Every
conjunct is independent of the tie order the argsort model determinizes. -/
theorem c2_amended (s : List ℚ) (k : ℕ) :
    ((find_top_matches s k).map fun i => s.getD i 0).Sorted (· ≥ ·) ∧
    (find_top_matches s k).length = min k s.length ∧
    find_top_matches s 0 = [] ∧
    (s.length ≤ k → List.Perm (find_top_matches s k) (List.range s.length)) :=
  ⟨scores_nonincreasing_find_top_matches s k, length_find_top_matches s k, rfl,
    fun h => perm_find_top_matches s k h⟩

/-- C2, witness for the amended theorem on the tied score array `[1, 1]` with
`top_n = 3` exceeding the corpus size. -/
theorem c2_amended_witness :
    ((find_top_matches [(1 : ℚ), 1] 3).map fun i => [(1 : ℚ), 1].getD i 0).Sorted (· ≥ ·) ∧
    (find_top_matches [(1 : ℚ), 1] 3).length = min 3 2 ∧
    find_top_matches [(1 : ℚ), 1] 0 = [] ∧
    List.Perm (find_top_matches [(1 : ℚ), 1] 3) (List.range 2) := by
  have h := c2_amended [(1 : ℚ), 1] 3
  exact ⟨h.1, h.2.1, h.2.2.1, h.2.2.2 (by decide)⟩

/-- C3: for every `K ≤ corpus size` and every non-degenerate query (non-empty
normalization, at least one token inside the fitted vocabulary), `recommend`
returns exactly `K` records whose similarity scores are non-increasing. -/
theorem c3_exact_k_sorted (nltk : NltkData) (gr : GameRecommender) (text : Option String)
    (k : ℕ) (hk : k ≤ gr.game_vectors.length)
    (hne : pyStrip (clean_text nltk text) ≠ "")
    (hvocab : ∃ q ∈ transform_text gr.vectorizer (clean_text nltk text), q ≠ 0) :
    (GameRecommender.recommend nltk gr text k).length = k ∧
    ((GameRecommender.recommend nltk gr text k).map Recommendation.similarity_score).Sorted
      (· ≥ ·) := by
  rw [recommend_eq nltk gr text k hne]
  constructor
  · rw [List.length_map, length_find_top_matches, length_querySims]
    exact min_eq_left hk
  · rw [List.map_map]
    have hs := sorted_find_top_matches (querySims nltk gr text) k
    rw [List.Sorted, List.pairwise_map]
    refine hs.imp ?_
    intro i j hij
    rcases hij with hlt | ⟨heq, _⟩
    · exact le_of_lt hlt
    · exact le_of_eq heq

/-- C3, witness at the in-vocabulary query `"action"` with `K = 2` equal to
the corpus size. -/
theorem c3_witness :
    (GameRecommender.recommend nltk0 gr0 (some "action") 2).length = 2 ∧
    ((GameRecommender.recommend nltk0 gr0 (some "action") 2).map
      Recommendation.similarity_score).Sorted (· ≥ ·) :=
  c3_exact_k_sorted nltk0 gr0 (some "action") 2 (by decide) (by decide) (by decide)

/-- C4: whenever normalization yields an empty or whitespace-only string,
`recommend` returns the empty list (total function — no exception path). -/
theorem c4_empty_normalization (nltk : NltkData) (gr : GameRecommender)
    (text : Option String) (k : ℕ) (h : pyStrip (clean_text nltk text) = "") :
    GameRecommender.recommend nltk gr text k = [] :=
  recommend_empty_of_stripped nltk gr text k h

/-- C4, witness: `recommend("", 7)` returns `[]`. -/
theorem c4_witness : GameRecommender.recommend nltk0 gr0 (some "") 7 = [] :=
  c4_empty_normalization nltk0 gr0 (some "") 7 (by decide)

/-- C5: every record `recommend` returns satisfies
`match_percentage = similarity_score * 100`. -/
theorem c5_match_percentage (nltk : NltkData) (gr : GameRecommender) (text : Option String)
    (k : ℕ) :
    ∀ r ∈ GameRecommender.recommend nltk gr text k,
      r.match_percentage = r.similarity_score * 100 := by
  intro r hr
  by_cases h : pyStrip (clean_text nltk text) = ""
  · rw [recommend_empty_of_stripped nltk gr text k h] at hr
    simp at hr
  · rw [recommend_eq nltk gr text k h] at hr
    simp only [List.mem_map] at hr
    obtain ⟨i, _, rfl⟩ := hr
    rfl

/-- C5, witness: the top record for the query `"action"` satisfies the
percentage identity. -/
theorem c5_witness :
    (⟨10, "Alpha", 1, 100⟩ : Recommendation) ∈
      GameRecommender.recommend nltk0 gr0 (some "action") 2 ∧
    (⟨10, "Alpha", 1, 100⟩ : Recommendation).match_percentage =
      (⟨10, "Alpha", 1, 100⟩ : Recommendation).similarity_score * 100 :=
  ⟨by decide, c5_match_percentage nltk0 gr0 (some "action") 2 _ (by decide)⟩

/-- C6: `recommend` is deterministic — the pipeline is a pure function of the
loaded model and the inputs (no randomness, no mutable state), so two calls
with identical model and arguments produce identical ordered output. -/
theorem c6_deterministic (nltk : NltkData) (gr : GameRecommender) (text : Option String)
    (k : ℕ) :
    GameRecommender.recommend nltk gr text k = GameRecommender.recommend nltk gr text k :=
  rfl

/-- C7: non-string input (modelled by `none`) and the empty string both map
to the empty string, and `clean_text` is total (never raises). -/
theorem c7_nonstring_or_empty (nltk : NltkData) (text : Option String)
    (h : text = none ∨ text = some "") : clean_text nltk text = "" := by
  rcases h with rfl | rfl
  · rfl
  · rfl

/-- C7, witness at the non-string input. -/
theorem c7_witness : clean_text nltk0 none = "" :=
  c7_nonstring_or_empty nltk0 none (Or.inl rfl)

/-- C8, counterexample: `"the.a"` consists only of the stopwords `"the"`,
`"a"` and the punctuation character `'.'`, yet `clean_text` returns
`"thea"` ≠ `""` — deleting the punctuation glues the two stopwords into a
single non-stopword token. -/
theorem c8_counterexample :
    OnlyStopwordsPunct nltk0.stop_words "the.a" ∧
    clean_text nltk0 (some "the.a") = "thea" ∧
    clean_text nltk0 (some "the.a") ≠ "" := by
  refine ⟨?_, by decide, by decide⟩
  have h1 : OnlyStopwordsPunct nltk0.stop_words ("a" ++ "") :=
    OnlyStopwordsPunct.stopword "a" "" (by decide) OnlyStopwordsPunct.nil
  have h1' : OnlyStopwordsPunct nltk0.stop_words "a" := by
    have e : ("a" ++ "" : String) = "a" := by decide
    exact e ▸ h1
  have h2 : OnlyStopwordsPunct nltk0.stop_words (String.singleton '.' ++ "a") :=
    OnlyStopwordsPunct.punct '.' "a" (by decide) h1'
  have h2' : OnlyStopwordsPunct nltk0.stop_words ".a" := by
    have e : (String.singleton '.' ++ "a" : String) = ".a" := by decide
    exact e ▸ h2
  have h3 : OnlyStopwordsPunct nltk0.stop_words ("the" ++ ".a") :=
    OnlyStopwordsPunct.stopword "the" ".a" (by decide) h2'
  have e : ("the" ++ ".a" : String) = "the.a" := by decide
  exact e ▸ h3

/-- C8, amended: if every whitespace-separated token of the input — after
lowercasing and deleting every character outside the lowercase-letter and
whitespace class — lies in the stopword set (so punctuation never merges two
words into a non-stopword token), then `clean_text` returns `""`. -/
theorem c8_amended (nltk : NltkData) (s : String)
    (h : ∀ w ∈ pySplit (keepLetterWs (pyLower s)), w ∈ nltk.stop_words) :
    clean_text nltk (some s) = "" := by
  by_cases hs : s = ""
  · subst hs
    rfl
  · simp only [clean_text]
    rw [if_neg hs, removeStopLemma_eq_nil nltk _ h]
    rfl

/-- C8, witness for the amended theorem on `"the, and!"`, a string of
stopwords and punctuation in which punctuation does not glue words. -/
theorem c8_amended_witness : clean_text nltk0 (some "the, and!") = "" :=
  c8_amended nltk0 "the, and!" (by decide)

/-- C9: `clean_text` equals the spec-described normalizer: lowercase, delete
characters outside the lowercase-letter/whitespace class, split on
whitespace, drop stopwords, lemmatize the survivors, join with single spaces
preserving relative order. -/
theorem c9_pipeline (nltk : NltkData) (s : String) :
    clean_text nltk (some s) = cleanTextSpec nltk s := by
  by_cases hs : s = ""
  · subst hs
    rfl
  · simp only [clean_text, cleanTextSpec]
    rw [if_neg hs, removeStopLemma_eq_filter_map]

/-- C10: with no clamping or validation of `top_n` in the core, a
non-degenerate query with `top_n ≥ corpus size` yields exactly one record
per game — corpus-size many, built from pairwise-distinct game indices — and
`top_n = 0` yields the empty list. -/
theorem c10_no_clamping (nltk : NltkData) (gr : GameRecommender) (text : Option String)
    (k : ℕ) (hne : pyStrip (clean_text nltk text) ≠ "")
    (hk : gr.game_vectors.length ≤ k) :
    (GameRecommender.recommend nltk gr text k).length = gr.game_vectors.length ∧
    (find_top_matches (querySims nltk gr text) k).Nodup ∧
    GameRecommender.recommend nltk gr text 0 = [] := by
  refine ⟨?_, ?_, ?_⟩
  · rw [recommend_eq nltk gr text k hne, List.length_map, length_find_top_matches,
      length_querySims]
    exact min_eq_right hk
  · have hp := perm_find_top_matches (querySims nltk gr text) k
      (by rw [length_querySims]; exact hk)
    exact hp.symm.nodup (List.nodup_range _)
  · rw [recommend_eq nltk gr text 0 hne]
    rfl

/-- C10, witness at the query `"action"` with `top_n = 5` over the two-game
model. -/
theorem c10_witness :
    (GameRecommender.recommend nltk0 gr0 (some "action") 5).length =
      gr0.game_vectors.length ∧
    (find_top_matches (querySims nltk0 gr0 (some "action")) 5).Nodup ∧
    GameRecommender.recommend nltk0 gr0 (some "action") 0 = [] :=
  c10_no_clamping nltk0 gr0 (some "action") 5 (by decide) (by decide)

end SteamRec
